import Mathlib

/-!
Verification of the HR video analyzer pipeline (`hr-video-analyzer`).

The Python sources are shallowly embedded: external library calls (OpenCV,
Whisper, TextBlob, VADER, PyTorch, `json.dump`) become oracle parameters,
raised exceptions become `Except.error` carrying `str(e)`, Python dicts with
optional keys become structures with `Option` fields, and floats become
rationals.
-/

namespace HRVideo

/-- Transcription result dictionary returned by `AudioTranscriber.transcribe`:
the transcribed text (already stripped by the transcriber) and the detected
language.  The per-segment payload is not inspected by any caller and is not
modelled. -/
structure Transcription where
  text : String
  language : String
deriving DecidableEq

/-- Subsystems that `process_video` may invoke. -/
inductive Stage where
  | facialAnalyzer
  | audioTranscriber
  | candidateEvaluator
deriving DecidableEq

/-- Environment of one `process_video` run: the module-availability flags
(`FACIAL_ANALYSIS_AVAILABLE`, `TRANSCRIPTION_AVAILABLE`) and the outcome of
each external subsystem call; `Except.error e` models that the call raised an
exception whose `str` is `e`.  `F`, `E`, `A` are the payload types produced by
frame analysis, candidate evaluation and facial-expression analysis. -/
structure PVEnv (F E A : Type) where
  facialAnalysisAvailable : Bool
  transcriptionAvailable : Bool
  frameResults : F
  facialOutcome : Except String A
  transcriptionOutcome : Except String Transcription
  evaluationOutcome : Except String E

/-- The `results` dictionary assembled by `process_video`; `Option` fields
model keys that may be absent from the dict. -/
structure PVResults (F E A : Type) where
  frame_analysis : F
  transcription : Option Transcription
  evaluation : Option E
  facial_expression_analysis : Option A
  facial_analysis_error : Option String
  transcription_error : Option String
  evaluation_error : Option String
deriving DecidableEq

/-- Error string stored under `transcription_error` when the transcription
modules failed to import. -/
def transcriptionMissingMsg : String :=
  "Transcription dependencies not installed. Please install: pip install openai-whisper ffmpeg-python torch"

/-- Error string stored under `evaluation_error` when the transcription
modules failed to import. -/
def evaluationRequiresMsg : String :=
  "Evaluation requires transcription"

variable {F E A : Type}

/-- Facial-expression block of `process_video`: guarded by
`FACIAL_ANALYSIS_AVAILABLE`, the analyzer construction plus
`analyze_video_frames` call (outcome `outcome`) runs inside a try/except that
records `str(e)` under `facial_analysis_error` and leaves
`facial_expression_analysis` as `None` on failure.  Also returns the list of
subsystems invoked. -/
def facialStage (avail : Bool) (outcome : Except String A) (r : PVResults F E A) :
    PVResults F E A × List Stage :=
  if avail then
    match outcome with
    | Except.ok fa =>
        ({ r with facial_expression_analysis := some fa }, [Stage.facialAnalyzer])
    | Except.error e =>
        ({ r with facial_analysis_error := some e, facial_expression_analysis := none },
         [Stage.facialAnalyzer])
  else (r, [])

/-- Transcription/evaluation block of `process_video`: guarded by
`transcribe_audio`; when the transcription modules are missing it only records
the two fixed error strings, otherwise the transcriber runs (outcome
`tOutcome`), its result is stored, and when the transcribed text is non-empty
the evaluator runs (outcome `eOutcome`); an exception anywhere in the try
block records `str(e)` under both `transcription_error` and
`evaluation_error`.  Also returns the list of subsystems invoked. -/
def transcriptionStage (avail : Bool) (tOutcome : Except String Transcription)
    (eOutcome : Except String E) (transcribeAudio : Bool) (r : PVResults F E A) :
    PVResults F E A × List Stage :=
  if transcribeAudio then
    if avail then
      match tOutcome with
      | Except.error e =>
          ({ r with transcription_error := some e, evaluation_error := some e },
           [Stage.audioTranscriber])
      | Except.ok t =>
          if t.text = "" then
            ({ r with transcription := some t }, [Stage.audioTranscriber])
          else
            match eOutcome with
            | Except.ok ev =>
                ({ r with transcription := some t, evaluation := some ev },
                 [Stage.audioTranscriber, Stage.candidateEvaluator])
            | Except.error e =>
                ({ r with transcription := some t,
                          transcription_error := some e, evaluation_error := some e },
                 [Stage.audioTranscriber, Stage.candidateEvaluator])
    else
      ({ r with transcription_error := some transcriptionMissingMsg,
                evaluation_error := some evaluationRequiresMsg }, [])
  else (r, [])

/-- Model of `os.path.join` on the two-argument uses in this code base. -/
def osPathJoin (a b : String) : String := a ++ "/" ++ b

/-- Observable output of a `process_video` run: the returned path and results
dict, the file write performed by `json.dump` (path and serialized content),
and the trace of subsystems invoked, in invocation order. -/
structure PVOutput (F E A : Type) where
  resultsPath : String
  results : PVResults F E A
  writtenPath : String
  writtenContent : String
  trace : List Stage

/-- Shallow embedding of `process_video`: frame extraction and analysis
produce `env.frameResults`, then the facial-expression block and the
transcription/evaluation block update the results dict, which is serialized
(`serialize` stands for `json.dump`) to `work_dir/results.json`; the function
returns that path together with the dict. -/
def process_video (env : PVEnv F E A) (workDir : String) (transcribeAudio : Bool)
    (serialize : PVResults F E A → String) : PVOutput F E A :=
  let r0 : PVResults F E A :=
    { frame_analysis := env.frameResults
      transcription := none
      evaluation := none
      facial_expression_analysis := none
      facial_analysis_error := none
      transcription_error := none
      evaluation_error := none }
  let s1 := facialStage env.facialAnalysisAvailable env.facialOutcome r0
  let s2 := transcriptionStage env.transcriptionAvailable env.transcriptionOutcome
      env.evaluationOutcome transcribeAudio s1.1
  let path := osPathJoin workDir "results.json"
  { resultsPath := path
    results := s2.1
    writtenPath := path
    writtenContent := serialize s2.1
    trace := s1.2 ++ s2.2 }

lemma facialStage_preserves (avail : Bool) (outcome : Except String A)
    (r : PVResults F E A) :
    (facialStage avail outcome r).1.frame_analysis = r.frame_analysis ∧
    (facialStage avail outcome r).1.transcription = r.transcription ∧
    (facialStage avail outcome r).1.evaluation = r.evaluation ∧
    (facialStage avail outcome r).1.transcription_error = r.transcription_error ∧
    (facialStage avail outcome r).1.evaluation_error = r.evaluation_error := by
  cases avail <;> cases outcome <;> simp [facialStage]

lemma facialStage_trace_no_evaluator (avail : Bool) (outcome : Except String A)
    (r : PVResults F E A) :
    Stage.candidateEvaluator ∉ (facialStage avail outcome r).2 := by
  cases avail <;> cases outcome <;> simp [facialStage]

lemma transcriptionStage_preserves (avail : Bool)
    (tOutcome : Except String Transcription) (eOutcome : Except String E)
    (b : Bool) (r : PVResults F E A) :
    (transcriptionStage avail tOutcome eOutcome b r).1.frame_analysis = r.frame_analysis ∧
    (transcriptionStage avail tOutcome eOutcome b r).1.facial_expression_analysis =
      r.facial_expression_analysis ∧
    (transcriptionStage avail tOutcome eOutcome b r).1.facial_analysis_error =
      r.facial_analysis_error := by
  cases b with
  | false => simp [transcriptionStage]
  | true =>
    cases avail with
    | false => simp [transcriptionStage]
    | true =>
      cases tOutcome with
      | error e => simp [transcriptionStage]
      | ok t =>
        by_cases ht : t.text = ""
        · simp [transcriptionStage, ht]
        · cases eOutcome with
          | ok ev => simp [transcriptionStage, ht]
          | error e => simp [transcriptionStage, ht]

lemma transcriptionStage_congr (avail : Bool)
    (tOutcome : Except String Transcription) (eOutcome : Except String E)
    (b : Bool) (r r' : PVResults F E A)
    (h1 : r.transcription = r'.transcription)
    (h2 : r.evaluation = r'.evaluation)
    (h3 : r.transcription_error = r'.transcription_error)
    (h4 : r.evaluation_error = r'.evaluation_error) :
    (transcriptionStage avail tOutcome eOutcome b r).1.transcription =
      (transcriptionStage avail tOutcome eOutcome b r').1.transcription ∧
    (transcriptionStage avail tOutcome eOutcome b r).1.evaluation =
      (transcriptionStage avail tOutcome eOutcome b r').1.evaluation ∧
    (transcriptionStage avail tOutcome eOutcome b r).1.transcription_error =
      (transcriptionStage avail tOutcome eOutcome b r').1.transcription_error ∧
    (transcriptionStage avail tOutcome eOutcome b r).1.evaluation_error =
      (transcriptionStage avail tOutcome eOutcome b r').1.evaluation_error := by
  cases b with
  | false => simp [transcriptionStage, h1, h2, h3, h4]
  | true =>
    cases avail with
    | false => simp [transcriptionStage, h1, h2, h3, h4]
    | true =>
      cases tOutcome with
      | error e => simp [transcriptionStage, h1, h2, h3, h4]
      | ok t =>
        by_cases ht : t.text = ""
        · simp [transcriptionStage, ht, h1, h2, h3, h4]
        · cases eOutcome with
          | ok ev => simp [transcriptionStage, ht, h1, h2, h3, h4]
          | error e => simp [transcriptionStage, ht, h1, h2, h3, h4]

lemma transcriptionStage_evaluator_trace (avail : Bool)
    (tOutcome : Except String Transcription) (eOutcome : Except String E)
    (b : Bool) (r : PVResults F E A)
    (hmem : Stage.candidateEvaluator ∈ (transcriptionStage avail tOutcome eOutcome b r).2) :
    (b = true ∧ avail = true ∧
      ∃ t : Transcription, tOutcome = Except.ok t ∧ t.text ≠ "") ∧
    (transcriptionStage avail tOutcome eOutcome b r).2 =
      [Stage.audioTranscriber, Stage.candidateEvaluator] := by
  cases b with
  | false => simp [transcriptionStage] at hmem
  | true =>
    cases avail with
    | false => simp [transcriptionStage] at hmem
    | true =>
      cases tOutcome with
      | error e => simp [transcriptionStage] at hmem
      | ok t =>
        by_cases ht : t.text = ""
        · simp [transcriptionStage, ht] at hmem
        · cases eOutcome with
          | ok ev => exact ⟨⟨rfl, rfl, t, rfl, ht⟩, by simp [transcriptionStage, ht]⟩
          | error e => exact ⟨⟨rfl, rfl, t, rfl, ht⟩, by simp [transcriptionStage, ht]⟩

lemma transcriptionStage_evaluation_none (avail : Bool)
    (tOutcome : Except String Transcription) (eOutcome : Except String E)
    (b : Bool) (r : PVResults F E A)
    (hcond : b = false ∨ avail = false ∨
      (∃ e : String, tOutcome = Except.error e) ∨
      (∃ t : Transcription, tOutcome = Except.ok t ∧ t.text = "")) :
    (transcriptionStage avail tOutcome eOutcome b r).1.evaluation = r.evaluation := by
  rcases hcond with hb | hav | ⟨e, he⟩ | ⟨t, ht, htext⟩
  · subst hb
    simp [transcriptionStage]
  · subst hav
    cases b <;> simp [transcriptionStage]
  · subst he
    cases b <;> cases avail <;> simp [transcriptionStage]
  · subst ht
    cases b <;> cases avail <;> simp [transcriptionStage, htext]

/-- C1: neither a facial-analysis exception nor a transcription/evaluation
exception propagates out of `process_video`: the run still produces the
results path and a results dict holding `frame_analysis`, with the failure
recorded as a string under `facial_analysis_error` for the facial stage, and
under both `transcription_error` and `evaluation_error` for the
transcription/evaluation stage. -/
theorem process_video_catches_stage_failures (env : PVEnv F E A) (workDir : String)
    (transcribeAudio : Bool) (serialize : PVResults F E A → String) :
    (process_video env workDir transcribeAudio serialize).resultsPath =
      osPathJoin workDir "results.json" ∧
    (process_video env workDir transcribeAudio serialize).results.frame_analysis =
      env.frameResults ∧
    (∀ e : String, env.facialAnalysisAvailable = true →
      env.facialOutcome = Except.error e →
      (process_video env workDir transcribeAudio serialize).results.facial_analysis_error =
        some e) ∧
    (∀ e : String, transcribeAudio = true → env.transcriptionAvailable = true →
      env.transcriptionOutcome = Except.error e →
      (process_video env workDir transcribeAudio serialize).results.transcription_error =
        some e ∧
      (process_video env workDir transcribeAudio serialize).results.evaluation_error =
        some e) ∧
    (∀ (e : String) (t : Transcription), transcribeAudio = true →
      env.transcriptionAvailable = true → env.transcriptionOutcome = Except.ok t →
      t.text ≠ "" → env.evaluationOutcome = Except.error e →
      (process_video env workDir transcribeAudio serialize).results.transcription_error =
        some e ∧
      (process_video env workDir transcribeAudio serialize).results.evaluation_error =
        some e) := by
  obtain ⟨fa, ta, fr, fOut, trOut, eOut⟩ := env
  refine ⟨rfl, ?_, ?_, ?_, ?_⟩
  · have h1 := transcriptionStage_preserves (F := F) (E := E) (A := A) ta trOut eOut
      transcribeAudio (facialStage fa fOut
        { frame_analysis := fr, transcription := none, evaluation := none,
          facial_expression_analysis := none, facial_analysis_error := none,
          transcription_error := none, evaluation_error := none }).1
    have h2 := facialStage_preserves (F := F) (E := E) (A := A) fa fOut
      { frame_analysis := fr, transcription := none, evaluation := none,
        facial_expression_analysis := none, facial_analysis_error := none,
        transcription_error := none, evaluation_error := none }
    simpa [process_video, h1.1] using h2.1
  · intro e hfa hfo
    simp only at hfa hfo
    subst hfa hfo
    have h1 := transcriptionStage_preserves (F := F) (E := E) (A := A) ta trOut eOut
      transcribeAudio
      { frame_analysis := fr, transcription := none, evaluation := none,
        facial_expression_analysis := none, facial_analysis_error := some e,
        transcription_error := none, evaluation_error := none }
    simp [process_video, facialStage, h1.2.2]
  · intro e hb hta hto
    simp only at hta hto
    subst hb hta hto
    constructor <;> simp [process_video, transcriptionStage]
  · intro e t hb hta hto htext heo
    simp only at hta hto heo
    subst hb hta hto heo
    constructor <;> simp [process_video, transcriptionStage, htext]

/-- C1 witness: a concrete run in which both the facial stage and the
transcription stage raise; both failures are recorded and the run completes. -/
theorem process_video_catches_stage_failures_witness :
    (process_video (F := Unit) (E := Unit) (A := Unit)
        { facialAnalysisAvailable := true, transcriptionAvailable := true,
          frameResults := (), facialOutcome := Except.error "face boom",
          transcriptionOutcome := Except.error "audio boom",
          evaluationOutcome := Except.ok () }
        "work" true (fun _ => "json")).results.facial_analysis_error = some "face boom" ∧
    (process_video (F := Unit) (E := Unit) (A := Unit)
        { facialAnalysisAvailable := true, transcriptionAvailable := true,
          frameResults := (), facialOutcome := Except.error "face boom",
          transcriptionOutcome := Except.error "audio boom",
          evaluationOutcome := Except.ok () }
        "work" true (fun _ => "json")).results.transcription_error = some "audio boom" := by
  have h := process_video_catches_stage_failures (F := Unit) (E := Unit) (A := Unit)
    { facialAnalysisAvailable := true, transcriptionAvailable := true,
      frameResults := (), facialOutcome := Except.error "face boom",
      transcriptionOutcome := Except.error "audio boom",
      evaluationOutcome := Except.ok () }
    "work" true (fun _ => "json")
  exact ⟨h.2.2.1 "face boom" rfl rfl,
    (h.2.2.2.1 "audio boom" rfl rfl rfl).1⟩

/-- C2: the facial-expression branch and the transcription/evaluation branch
of `process_video` are independent: changing only the facial-stage outcome
(including making it raise) leaves `transcription`, `evaluation`,
`transcription_error` and `evaluation_error` unchanged, and changing only the
transcription/evaluation outcomes leaves `facial_expression_analysis` and
`facial_analysis_error` unchanged. -/
theorem process_video_branch_independence (env env' : PVEnv F E A) (workDir : String)
    (transcribeAudio : Bool) (serialize serialize' : PVResults F E A → String) :
    (env'.transcriptionAvailable = env.transcriptionAvailable →
     env'.transcriptionOutcome = env.transcriptionOutcome →
     env'.evaluationOutcome = env.evaluationOutcome →
     (process_video env' workDir transcribeAudio serialize').results.transcription =
       (process_video env workDir transcribeAudio serialize).results.transcription ∧
     (process_video env' workDir transcribeAudio serialize').results.evaluation =
       (process_video env workDir transcribeAudio serialize).results.evaluation ∧
     (process_video env' workDir transcribeAudio serialize').results.transcription_error =
       (process_video env workDir transcribeAudio serialize).results.transcription_error ∧
     (process_video env' workDir transcribeAudio serialize').results.evaluation_error =
       (process_video env workDir transcribeAudio serialize).results.evaluation_error) ∧
    (env'.facialAnalysisAvailable = env.facialAnalysisAvailable →
     env'.facialOutcome = env.facialOutcome →
     (process_video env' workDir transcribeAudio serialize').results.facial_expression_analysis =
       (process_video env workDir transcribeAudio serialize).results.facial_expression_analysis ∧
     (process_video env' workDir transcribeAudio serialize').results.facial_analysis_error =
       (process_video env workDir transcribeAudio serialize).results.facial_analysis_error) := by
  obtain ⟨fa, ta, fr, fOut, trOut, eOut⟩ := env
  obtain ⟨fa', ta', fr', fOut', trOut', eOut'⟩ := env'
  constructor
  · intro h1 h2 h3
    simp only at h1 h2 h3
    subst h1 h2 h3
    have p := facialStage_preserves (F := F) (E := E) (A := A) fa fOut
      { frame_analysis := fr, transcription := none, evaluation := none,
        facial_expression_analysis := none, facial_analysis_error := none,
        transcription_error := none, evaluation_error := none }
    have p' := facialStage_preserves (F := F) (E := E) (A := A) fa' fOut'
      { frame_analysis := fr', transcription := none, evaluation := none,
        facial_expression_analysis := none, facial_analysis_error := none,
        transcription_error := none, evaluation_error := none }
    have hc := transcriptionStage_congr (F := F) (E := E) (A := A) ta' trOut' eOut'
      transcribeAudio
      (facialStage fa' fOut'
        { frame_analysis := fr', transcription := none, evaluation := none,
          facial_expression_analysis := none, facial_analysis_error := none,
          transcription_error := none, evaluation_error := none }).1
      (facialStage fa fOut
        { frame_analysis := fr, transcription := none, evaluation := none,
          facial_expression_analysis := none, facial_analysis_error := none,
          transcription_error := none, evaluation_error := none }).1
      (by rw [p'.2.1, p.2.1]) (by rw [p'.2.2.1, p.2.2.1])
      (by rw [p'.2.2.2.1, p.2.2.2.1]) (by rw [p'.2.2.2.2, p.2.2.2.2])
    simpa [process_video] using hc
  · intro h1 h2
    simp only at h1 h2
    subst h1 h2
    have q := transcriptionStage_preserves (F := F) (E := E) (A := A) ta trOut eOut
      transcribeAudio (facialStage fa' fOut'
        { frame_analysis := fr, transcription := none, evaluation := none,
          facial_expression_analysis := none, facial_analysis_error := none,
          transcription_error := none, evaluation_error := none }).1
    have q' := transcriptionStage_preserves (F := F) (E := E) (A := A) ta' trOut' eOut'
      transcribeAudio (facialStage fa' fOut'
        { frame_analysis := fr', transcription := none, evaluation := none,
          facial_expression_analysis := none, facial_analysis_error := none,
          transcription_error := none, evaluation_error := none }).1
    constructor
    · simp only [process_video]
      rw [q.2.1, q'.2.1]
      cases fa' <;> cases fOut' <;> simp [facialStage]
    · simp only [process_video]
      rw [q.2.2, q'.2.2]
      cases fa' <;> cases fOut' <;> simp [facialStage]

/-- C2 witness: with a concrete environment, making the facial stage raise
does not change the stored transcription. -/
theorem process_video_branch_independence_witness :
    (process_video (F := Unit) (E := Unit) (A := Unit)
        { facialAnalysisAvailable := true, transcriptionAvailable := true,
          frameResults := (), facialOutcome := Except.error "face boom",
          transcriptionOutcome := Except.ok { text := "hello", language := "en" },
          evaluationOutcome := Except.ok () }
        "work" true (fun _ => "")).results.transcription =
      (process_video (F := Unit) (E := Unit) (A := Unit)
        { facialAnalysisAvailable := true, transcriptionAvailable := true,
          frameResults := (), facialOutcome := Except.ok (),
          transcriptionOutcome := Except.ok { text := "hello", language := "en" },
          evaluationOutcome := Except.ok () }
        "work" true (fun _ => "")).results.transcription := by
  have h := process_video_branch_independence (F := Unit) (E := Unit) (A := Unit)
    { facialAnalysisAvailable := true, transcriptionAvailable := true,
      frameResults := (), facialOutcome := Except.ok (),
      transcriptionOutcome := Except.ok { text := "hello", language := "en" },
      evaluationOutcome := Except.ok () }
    { facialAnalysisAvailable := true, transcriptionAvailable := true,
      frameResults := (), facialOutcome := Except.error "face boom",
      transcriptionOutcome := Except.ok { text := "hello", language := "en" },
      evaluationOutcome := Except.ok () }
    "work" true (fun _ => "") (fun _ => "")
  exact (h.1 rfl rfl rfl).1

/-- C3: the candidate evaluator runs only after the audio transcriber has
returned, and only when `transcribe_audio` is set, the transcription modules
imported, and the transcribed text is non-empty; whenever one of those
conditions fails, `results["evaluation"]` stays `None`, and when the
transcription modules are missing, `evaluation_error` is the fixed
"Evaluation requires transcription" string. -/
theorem process_video_evaluator_gating (env : PVEnv F E A) (workDir : String)
    (transcribeAudio : Bool) (serialize : PVResults F E A → String) :
    (Stage.candidateEvaluator ∈ (process_video env workDir transcribeAudio serialize).trace →
      transcribeAudio = true ∧ env.transcriptionAvailable = true ∧
      ∃ t : Transcription, env.transcriptionOutcome = Except.ok t ∧ t.text ≠ "") ∧
    (Stage.candidateEvaluator ∈ (process_video env workDir transcribeAudio serialize).trace →
      ∃ pre : List Stage,
        (process_video env workDir transcribeAudio serialize).trace =
          pre ++ [Stage.audioTranscriber, Stage.candidateEvaluator]) ∧
    ((transcribeAudio = false ∨ env.transcriptionAvailable = false ∨
      (∃ e : String, env.transcriptionOutcome = Except.error e) ∨
      (∃ t : Transcription, env.transcriptionOutcome = Except.ok t ∧ t.text = "")) →
      (process_video env workDir transcribeAudio serialize).results.evaluation = none) ∧
    (transcribeAudio = true → env.transcriptionAvailable = false →
      (process_video env workDir transcribeAudio serialize).results.evaluation_error =
        some evaluationRequiresMsg) := by
  obtain ⟨fa, ta, fr, fOut, trOut, eOut⟩ := env
  refine ⟨?_, ?_, ?_, ?_⟩
  · intro hmem
    simp only [process_video, List.mem_append] at hmem
    rcases hmem with hmem | hmem
    · exact absurd hmem (facialStage_trace_no_evaluator _ _ _)
    · exact (transcriptionStage_evaluator_trace _ _ _ _ _ hmem).1
  · intro hmem
    simp only [process_video, List.mem_append] at hmem
    rcases hmem with hmem | hmem
    · exact absurd hmem (facialStage_trace_no_evaluator _ _ _)
    · refine ⟨(facialStage (F := F) (E := E) (A := A) fa fOut
        { frame_analysis := fr, transcription := none, evaluation := none,
          facial_expression_analysis := none, facial_analysis_error := none,
          transcription_error := none, evaluation_error := none }).2, ?_⟩
      simp only [process_video]
      rw [(transcriptionStage_evaluator_trace _ _ _ _ _ hmem).2]
  · intro hcond
    have hfacial := facialStage_preserves (F := F) (E := E) (A := A) fa fOut
      { frame_analysis := fr, transcription := none, evaluation := none,
        facial_expression_analysis := none, facial_analysis_error := none,
        transcription_error := none, evaluation_error := none }
    have hnone := transcriptionStage_evaluation_none (F := F) (E := E) (A := A)
      ta trOut eOut transcribeAudio
      (facialStage fa fOut
        { frame_analysis := fr, transcription := none, evaluation := none,
          facial_expression_analysis := none, facial_analysis_error := none,
          transcription_error := none, evaluation_error := none }).1
      (by simpa using hcond)
    simp only [process_video]
    rw [hnone, hfacial.2.2.1]
  · intro hb hta
    simp only at hta
    subst hb hta
    simp [process_video, transcriptionStage]

/-- C3 witness: with transcription modules missing, the evaluation stays
`None` and `evaluation_error` is the fixed message. -/
theorem process_video_evaluator_gating_witness :
    (process_video (F := Unit) (E := Unit) (A := Unit)
        { facialAnalysisAvailable := false, transcriptionAvailable := false,
          frameResults := (), facialOutcome := Except.ok (),
          transcriptionOutcome := Except.ok { text := "hello", language := "en" },
          evaluationOutcome := Except.ok () }
        "work" true (fun _ => "")).results.evaluation = none ∧
    (process_video (F := Unit) (E := Unit) (A := Unit)
        { facialAnalysisAvailable := false, transcriptionAvailable := false,
          frameResults := (), facialOutcome := Except.ok (),
          transcriptionOutcome := Except.ok { text := "hello", language := "en" },
          evaluationOutcome := Except.ok () }
        "work" true (fun _ => "")).results.evaluation_error =
      some evaluationRequiresMsg := by
  have h := process_video_evaluator_gating (F := Unit) (E := Unit) (A := Unit)
    { facialAnalysisAvailable := false, transcriptionAvailable := false,
      frameResults := (), facialOutcome := Except.ok (),
      transcriptionOutcome := Except.ok { text := "hello", language := "en" },
      evaluationOutcome := Except.ok () }
    "work" true (fun _ => "")
  exact ⟨h.2.2.1 (Or.inr (Or.inl rfl)), h.2.2.2 rfl rfl⟩

/-- C4: `process_video` serializes the collected results dict to
`work_dir/results.json` and returns exactly that path together with the same
dict it serialized. -/
theorem process_video_serializes_results (env : PVEnv F E A) (workDir : String)
    (transcribeAudio : Bool) (serialize : PVResults F E A → String) :
    (process_video env workDir transcribeAudio serialize).resultsPath =
      osPathJoin workDir "results.json" ∧
    (process_video env workDir transcribeAudio serialize).writtenPath =
      (process_video env workDir transcribeAudio serialize).resultsPath ∧
    (process_video env workDir transcribeAudio serialize).writtenContent =
      serialize (process_video env workDir transcribeAudio serialize).results :=
  ⟨rfl, rfl, rfl⟩

variable {α : Type}

/-- File name given to the `i`-th saved frame by `extract_frames`. -/
def frameName (i : Nat) : String := "frame" ++ toString i ++ ".jpg"

/-- Loop body of `extract_frames`: walk the readable frames in capture order,
carrying `frame_num` and `img_count`; every `step`-th frame is written as
`frame{img_count}.jpg`.  Returns the final `img_count` and the list of saved
files (name and frame) in save order. -/
def extractLoop (step : Nat) : List α → Nat → Nat → Nat × List (String × α)
  | [], _, imgCount => (imgCount, [])
  | f :: rest, frameNum, imgCount =>
    if frameNum % step = 0 then
      let r := extractLoop step rest (frameNum + 1) (imgCount + 1)
      (r.1, (frameName imgCount, f) :: r.2)
    else
      extractLoop step rest (frameNum + 1) imgCount

/-- Observable output of `extract_frames`: the returned pair (number of saved
frames, output folder) and the files written. -/
structure ExtractOutput (α : Type) where
  imgCount : Nat
  outFolder : String
  saved : List (String × α)

/-- Shallow embedding of `extract_frames`: the capture yields the readable
frames `frames` in order (it then reports no further frame and the loop
stops); every `step`-th frame is saved to `outFolder` under consecutive names
`frame0.jpg`, `frame1.jpg`, …, and the function returns the count of saved
frames with the folder path. -/
def extract_frames (frames : List α) (outFolder : String) (step : Nat) :
    ExtractOutput α :=
  { imgCount := (extractLoop step frames 0 0).1
    outFolder := outFolder
    saved := (extractLoop step frames 0 0).2 }

/-- Reference selector: the frames whose 0-based capture index, counted from
`n`, is divisible by `step`. -/
def pick (step : Nat) : List α → Nat → List α
  | [], _ => []
  | f :: rest, n =>
    if n % step = 0 then f :: pick step rest (n + 1) else pick step rest (n + 1)

lemma extractLoop_fst (step : Nat) (l : List α) :
    ∀ n c, (extractLoop step l n c).1 = c + (pick step l n).length := by
  induction l with
  | nil => intro n c; simp [extractLoop, pick]
  | cons f rest ih =>
    intro n c
    by_cases h : n % step = 0
    · simp only [extractLoop, pick, h, if_true]
      rw [ih]
      simp only [List.length_cons]
      omega
    · simp only [extractLoop, pick, h, if_false]
      exact ih (n + 1) c

lemma extractLoop_snd_map_snd (step : Nat) (l : List α) :
    ∀ n c, (extractLoop step l n c).2.map Prod.snd = pick step l n := by
  induction l with
  | nil => intro n c; simp [extractLoop, pick]
  | cons f rest ih =>
    intro n c
    by_cases h : n % step = 0
    · simp only [extractLoop, pick, h, if_true, List.map_cons]
      rw [ih]
    · simp only [extractLoop, pick, h, if_false]
      exact ih (n + 1) c

lemma extractLoop_snd_map_fst (step : Nat) (l : List α) :
    ∀ n c, (extractLoop step l n c).2.map Prod.fst =
      (List.range (pick step l n).length).map (fun i => frameName (c + i)) := by
  induction l with
  | nil => intro n c; simp [extractLoop, pick]
  | cons f rest ih =>
    intro n c
    by_cases h : n % step = 0
    · simp only [extractLoop, pick, h, if_true, List.map_cons, List.length_cons,
        List.range_succ_eq_map, List.map_map, Function.comp]
      rw [ih]
      have harith : ∀ i : Nat, c + 1 + i = c + (i + 1) := by omega
      simp [harith, Nat.succ_eq_add_one]
    · simp only [extractLoop, pick, h, if_false]
      exact ih (n + 1) c

lemma pick_eq_filter_enumFrom (step : Nat) (l : List α) :
    ∀ n, pick step l n =
      ((l.enumFrom n).filter (fun p => p.1 % step == 0)).map Prod.snd := by
  induction l with
  | nil => intro n; simp [pick, List.enumFrom]
  | cons f rest ih =>
    intro n
    by_cases h : n % step = 0
    · simp [pick, List.enumFrom, List.filter, h, ih]
    · have hbeq : (n % step == 0) = false := by simp [h]
      simp [pick, List.enumFrom, List.filter, h, hbeq, ih]

lemma pick_append (step : Nat) (l1 l2 : List α) :
    ∀ n, pick step (l1 ++ l2) n = pick step l1 n ++ pick step l2 (n + l1.length) := by
  induction l1 with
  | nil => intro n; simp [pick]
  | cons f rest ih =>
    intro n
    have harith : n + 1 + rest.length = n + (rest.length + 1) := by omega
    by_cases h : n % step = 0
    · simp only [List.cons_append, pick, h, if_true, List.length_cons,
        List.append_eq, ih, ← harith]
    · simp only [List.cons_append, pick, h, if_false, List.length_cons,
        List.append_eq, ih, ← harith]

lemma ceil_div_succ (step n : Nat) (hstep : 0 < step) :
    (n + 1 + step - 1) / step =
      (n + step - 1) / step + (if n % step = 0 then 1 else 0) := by
  have h1 : n + 1 + step - 1 = n + step := by omega
  rw [h1]
  by_cases h : n % step = 0
  · simp only [h, if_true]
    obtain ⟨k, hk⟩ := Nat.dvd_of_mod_eq_zero h
    subst hk
    rw [Nat.add_div_right _ hstep]
    congr 1
    have h2 : step * k + step - 1 = step * k + (step - 1) := by omega
    rw [h2, Nat.mul_add_div hstep, Nat.mul_div_cancel_left k hstep,
      Nat.div_eq_of_lt (by omega)]
    omega
  · simp only [h, if_false, Nat.add_zero]
    have hn : 1 ≤ n := by
      rcases Nat.eq_zero_or_pos n with h0 | h1'
      · exact absurd (by simp [h0]) h
      · exact h1'
    have h2 : n + step - 1 = (n - 1) + step := by omega
    rw [h2, Nat.add_div_right _ hstep, Nat.add_div_right _ hstep]
    congr 1
    have h3 : n = (n - 1) + 1 := by omega
    have hnd : ¬ step ∣ (n - 1) + 1 := by
      rw [← h3]
      intro hd
      exact h (Nat.mod_eq_zero_of_dvd hd)
    conv_lhs => rw [h3]
    rw [Nat.succ_div, if_neg hnd, Nat.add_zero]

lemma pick_length_ceil (step : Nat) (hstep : 0 < step) (l : List α) :
    (pick step l 0).length = (l.length + step - 1) / step := by
  induction l using List.reverseRecOn with
  | nil =>
    simp only [pick, List.length_nil, List.length_eq_zero, Nat.zero_add]
    exact (Nat.div_eq_of_lt (by omega)).symm
  | append_singleton l a ih =>
    rw [pick_append step l [a] 0]
    simp only [List.length_append, List.length_singleton, Nat.zero_add]
    rw [ceil_div_succ step l.length hstep]
    by_cases h : l.length % step = 0
    · simp [pick, h, ih]
    · simp [pick, h, ih]

/-- C5: on a capture yielding `frames` in order and a positive `step`,
`extract_frames` saves exactly the frames whose capture index is divisible by
`step`, under the consecutive names `frame0.jpg`, `frame1.jpg`, …, and returns
the pair (number of saved frames, output folder) with the count equal to
`⌈n / step⌉ = (n + step - 1) / step`. -/
theorem extract_frames_spec (frames : List α) (outFolder : String) (step : Nat)
    (hstep : 0 < step) :
    (extract_frames frames outFolder step).outFolder = outFolder ∧
    (extract_frames frames outFolder step).imgCount =
      (frames.length + step - 1) / step ∧
    (extract_frames frames outFolder step).saved.length =
      (extract_frames frames outFolder step).imgCount ∧
    (extract_frames frames outFolder step).saved.map Prod.snd =
      (frames.enum.filter (fun p => p.1 % step == 0)).map Prod.snd ∧
    (extract_frames frames outFolder step).saved.map Prod.fst =
      (List.range (extract_frames frames outFolder step).imgCount).map frameName := by
  have h1 : (extractLoop step frames 0 0).1 = (pick step frames 0).length := by
    simpa using extractLoop_fst step frames 0 0
  have h2 := extractLoop_snd_map_snd step frames 0 0
  have h3 := extractLoop_snd_map_fst step frames 0 0
  have hlen : (extractLoop step frames 0 0).2.length = (pick step frames 0).length := by
    rw [← List.length_map (extractLoop step frames 0 0).2 Prod.snd, h2]
  refine ⟨rfl, ?_, ?_, ?_, ?_⟩
  · show (extractLoop step frames 0 0).1 = _
    rw [h1, pick_length_ceil step hstep frames]
  · show (extractLoop step frames 0 0).2.length = (extractLoop step frames 0 0).1
    rw [hlen, h1]
  · show (extractLoop step frames 0 0).2.map Prod.snd = _
    rw [h2, pick_eq_filter_enumFrom step frames 0, List.enum]
  · show (extractLoop step frames 0 0).2.map Prod.fst =
      (List.range (extractLoop step frames 0 0).1).map frameName
    rw [h3, h1]
    simp

/-- C5 witness: five readable frames with step 2 yield three saved frames
`frame0.jpg`, `frame1.jpg`, `frame2.jpg` holding the frames at indices 0, 2
and 4. -/
theorem extract_frames_spec_witness :
    (extract_frames (α := Nat) [10, 20, 30, 40, 50] "frames" 2).outFolder = "frames" ∧
    (extract_frames (α := Nat) [10, 20, 30, 40, 50] "frames" 2).imgCount =
      ([10, 20, 30, 40, 50].length + 2 - 1) / 2 ∧
    (extract_frames (α := Nat) [10, 20, 30, 40, 50] "frames" 2).saved.length =
      (extract_frames (α := Nat) [10, 20, 30, 40, 50] "frames" 2).imgCount ∧
    (extract_frames (α := Nat) [10, 20, 30, 40, 50] "frames" 2).saved.map Prod.snd =
      (([10, 20, 30, 40, 50] : List Nat).enum.filter
        (fun p => p.1 % 2 == 0)).map Prod.snd ∧
    (extract_frames (α := Nat) [10, 20, 30, 40, 50] "frames" 2).saved.map Prod.fst =
      (List.range
        (extract_frames (α := Nat) [10, 20, 30, 40, 50] "frames" 2).imgCount).map
        frameName :=
  extract_frames_spec [10, 20, 30, 40, 50] "frames" 2 (by decide)

/-- Round a rational to the nearest integer, ties to the even integer; this is
the rounding used by Python's builtin `round`. -/
def roundHalfEven (x : ℚ) : ℤ :=
  if x - (⌊x⌋ : ℚ) < 1/2 then ⌊x⌋
  else if 1/2 < x - (⌊x⌋ : ℚ) then ⌊x⌋ + 1
  else if ⌊x⌋ % 2 = 0 then ⌊x⌋ else ⌊x⌋ + 1

/-- Model of Python's `round(q, ndigits)` on exact rationals. -/
def pyRound (q : ℚ) (ndigits : Nat) : ℚ :=
  (roundHalfEven (q * (10 : ℚ) ^ ndigits) : ℚ) / (10 : ℚ) ^ ndigits

/-- Strip leading and trailing characters satisfying `p` from a character
list; used to model Python's `str.strip()`. -/
def stripCharsBy (p : Char → Bool) (s : List Char) : List Char :=
  ((s.dropWhile p).reverse.dropWhile p).reverse

/-- Model of Python's `str.strip()` with no argument: remove leading and
trailing whitespace. -/
def pyStrip (s : String) : String :=
  ⟨stripCharsBy Char.isWhitespace s.data⟩

/-- Model of Python's `str.lower()` (the texts involved are ASCII). -/
def pyLower (s : String) : String :=
  ⟨s.data.map Char.toLower⟩

/-- Split a character list at every character satisfying `p`; a run of `k`
separators produces `k - 1` empty pieces, which callers drop. -/
def splitCharsBy (p : Char → Bool) : List Char → List Char → List (List Char)
  | [], acc => [acc.reverse]
  | c :: rest, acc =>
    if p c then acc.reverse :: splitCharsBy p rest []
    else splitCharsBy p rest (c :: acc)

/-- Model of Python's `str.split()` with no separator: split on whitespace,
dropping all empty pieces. -/
def pySplitWs (s : String) : List String :=
  ((splitCharsBy Char.isWhitespace s.data []).filter
    (fun l => !l.isEmpty)).map (fun l => ⟨l⟩)

/-- Model of `re.split(r'[.!?]+', text)` followed by stripping each piece and
dropping the empty ones, as in `calculate_communication_clarity`. -/
def sentencesOf (text : String) : List String :=
  (((splitCharsBy (fun c => c == '.' || c == '!' || c == '?') text.data []).map
      (stripCharsBy Char.isWhitespace)).filter
    (fun l => !l.isEmpty)).map (fun l => ⟨l⟩)

def charsHavePre : List Char → List Char → Bool
  | _, [] => true
  | [], _ :: _ => false
  | c :: s, d :: p => c == d && charsHavePre s p

def charsContain : List Char → List Char → Bool
  | [], pat => pat.isEmpty
  | c :: rest, pat => charsHavePre (c :: rest) pat || charsContain rest pat

/-- Model of Python's substring test `pat in s`. -/
def strContains (s pat : String) : Bool :=
  charsContain s.toList pat.toList

/-- Polarity and subjectivity reported by the external TextBlob library for a
given text. -/
structure TBSentiment where
  polarity : ℚ
  subjectivity : ℚ

/-- Scores reported by the external VADER analyzer for a given text. -/
structure VaderScores where
  compound : ℚ
  pos : ℚ
  neu : ℚ
  neg : ℚ

/-- TextBlob oracle: the library's behaviour as a function of the text. -/
abbrev TBOracle := String → TBSentiment

/-- VADER oracle: the library's behaviour as a function of the text. -/
abbrev VaderOracle := String → VaderScores

/-- Dict returned by `TextAnalyzer.analyze_with_textblob`. -/
structure TextblobResult where
  polarity : ℚ
  subjectivity : ℚ
  label : String
  confidence : ℚ
deriving DecidableEq

/-- Dict returned by `TextAnalyzer.analyze_with_vader`. -/
structure VaderResult where
  compound : ℚ
  positive : ℚ
  neutral : ℚ
  negative : ℚ
  label : String
  confidence : ℚ
deriving DecidableEq

/-- Successful result dict of `TextAnalyzer.analyze`. -/
structure SentimentResult where
  text : String
  text_length : Nat
  word_count : Nat
  overall_label : String
  overall_confidence : ℚ
  textblob : TextblobResult
  vader : VaderResult
deriving DecidableEq

/-- Result of `TextAnalyzer.analyze`: either the empty-input error dict
(fields `error` and `text`) or the full analysis dict. -/
inductive AnalyzeResult where
  | emptyErr (error : String) (text : String)
  | ok (r : SentimentResult)
deriving DecidableEq

namespace TextAnalyzer

/-- Model of `TextAnalyzer.clean_text`: strip, then collapse whitespace runs
to single spaces. -/
def clean_text (text : String) : String :=
  String.intercalate " " (pySplitWs (pyStrip text))

/-- Model of `TextAnalyzer.analyze_with_textblob`; `tbv` is TextBlob's answer
on the analyzed text. -/
def analyze_with_textblob (tbv : TBSentiment) : TextblobResult :=
  { polarity := pyRound tbv.polarity 3
    subjectivity := pyRound tbv.subjectivity 3
    label :=
      if tbv.polarity > 1/10 then "positive"
      else if tbv.polarity < -(1/10) then "negative"
      else "neutral"
    confidence := pyRound |tbv.polarity| 3 }

/-- Model of `TextAnalyzer.analyze_with_vader`; `v` is VADER's answer on the
analyzed text. -/
def analyze_with_vader (v : VaderScores) : VaderResult :=
  { compound := pyRound v.compound 3
    positive := pyRound v.pos 3
    neutral := pyRound v.neu 3
    negative := pyRound v.neg 3
    label :=
      if v.compound ≥ 5/100 then "positive"
      else if v.compound ≤ -(5/100) then "negative"
      else "neutral"
    confidence := pyRound |v.compound| 3 }

/-- Success path of `TextAnalyzer.analyze` on the cleaned text. -/
def analyzeOk (tb : TBOracle) (vd : VaderOracle) (cleaned : String) : SentimentResult :=
  let tbr := analyze_with_textblob (tb cleaned)
  let vdr := analyze_with_vader (vd cleaned)
  let avgConfidence := (tbr.confidence + vdr.confidence) / 2
  { text := cleaned
    text_length := cleaned.length
    word_count := (pySplitWs cleaned).length
    overall_label :=
      if tbr.label = vdr.label then tbr.label
      else if tbr.confidence > vdr.confidence then tbr.label else vdr.label
    overall_confidence := pyRound avgConfidence 3
    textblob := tbr
    vader := vdr }

/-- Model of `TextAnalyzer.analyze`: empty or whitespace-only input yields the
error dict without running any analysis; otherwise the text is cleaned and
both sentiment methods run on it. -/
def analyze (tb : TBOracle) (vd : VaderOracle) (text : String) : AnalyzeResult :=
  if pyStrip text = "" then AnalyzeResult.emptyErr "Empty text provided" ""
  else AnalyzeResult.ok (analyzeOk tb vd (clean_text text))

end TextAnalyzer

/-- Result of `CandidateEvaluator.evaluate`: an error dict with an empty
`scores` dict, the passed-through analyzer error dict, or the full evaluation
dict. -/
inductive EvalResult where
  | err (error : String) (scores : List (String × ℚ))
  | analyzeErr (error : String) (text : String)
  | ok (transcribed_text : String) (text_length : Nat) (word_count : Nat)
      (scores : List (String × ℚ)) (overall_score : ℚ)
      (overall_label : String) (overall_confidence : ℚ)
      (textblob : TextblobResult) (vader : VaderResult)
deriving DecidableEq

/-- The `scores` entry of an evaluation result (empty for error dicts, which
carry `"scores": {}` or no scores at all). -/
def EvalResult.scoresOf : EvalResult → List (String × ℚ)
  | .err _ s => s
  | .analyzeErr _ _ => []
  | .ok _ _ _ scores _ _ _ _ _ => scores

/-- The `overall_score` entry of an evaluation result, when present. -/
def EvalResult.overallOf : EvalResult → Option ℚ
  | .ok _ _ _ _ overall _ _ _ _ => some overall
  | _ => none

/-- Holds when the optional score is within `[0, 1]`. -/
def optInUnitInterval : Option ℚ → Prop
  | some q => 0 ≤ q ∧ q ≤ 1
  | none => True

namespace CandidateEvaluator

def confidence_keywords : List String :=
  ["confident", "certain", "believe", "know", "sure", "definitely",
   "absolutely", "expertise", "experience", "accomplished", "achieved"]

def enthusiasm_keywords : List String :=
  ["excited", "passionate", "love", "enjoy", "thrilled", "amazing",
   "fantastic", "wonderful", "great", "excellent", "awesome"]

def professional_keywords : List String :=
  ["professional", "respect", "collaborate", "team", "leadership",
   "responsibility", "accountable", "integrity", "ethics", "values"]

/-- Model of `sum(1 for keyword in keywords if keyword in text_lower)`. -/
def countKeyword (keywords : List String) (textLower : String) : Nat :=
  keywords.countP (fun k => strContains textLower k)

/-- Model of the vocabulary-diversity expression
`len(set(words)) / len(words) if words else 0` over `text.lower().split()`,
as it appears in `calculate_communication_clarity` and
`calculate_engagement`. -/
def vocabDiversity (text : String) : ℚ :=
  let words := pySplitWs (pyLower text)
  if words = [] then 0 else (words.dedup.length : ℚ) / (words.length : ℚ)

/-- Model of `CandidateEvaluator.calculate_communication_clarity`. -/
def calculate_communication_clarity (text : String) (sr : SentimentResult) : ℚ :=
  let sentences := sentencesOf text
  if sentences = [] then 1/2
  else
    let avgSentenceLength : ℚ :=
      (sentences.map (fun s => ((pySplitWs s).length : ℚ))).sum / (sentences.length : ℚ)
    let lengthScore := max 0 (min 1 (1 - |avgSentenceLength - 35/2| / (35/2)))
    let clarityFromSubjectivity := 1 - sr.textblob.subjectivity
    pyRound (lengthScore * (3/10) + vocabDiversity text * (4/10) +
      clarityFromSubjectivity * (3/10)) 2

/-- Model of `CandidateEvaluator.calculate_confidence`. -/
def calculate_confidence (text : String) (sr : SentimentResult) : ℚ :=
  let keywordScore := min ((countKeyword confidence_keywords (pyLower text) : ℚ) / 5) 1
  let sentimentScore := (sr.textblob.polarity + 1) / 2
  let vaderScore := (sr.vader.compound + 1) / 2
  pyRound (keywordScore * (3/10) + sentimentScore * (35/100) +
    vaderScore * (35/100)) 2

/-- Model of `CandidateEvaluator.calculate_enthusiasm`. -/
def calculate_enthusiasm (text : String) (sr : SentimentResult) : ℚ :=
  let keywordScore := min ((countKeyword enthusiasm_keywords (pyLower text) : ℚ) / 5) 1
  let sentimentScore := max 0 sr.textblob.polarity
  let vaderPositive := sr.vader.positive
  pyRound (keywordScore * (3/10) + sentimentScore * (4/10) +
    vaderPositive * (3/10)) 2

/-- Model of `CandidateEvaluator.calculate_professionalism`. -/
def calculate_professionalism (text : String) (sr : SentimentResult) : ℚ :=
  let keywordScore := min ((countKeyword professional_keywords (pyLower text) : ℚ) / 5) 1
  let objectivityScore := 1 - sr.textblob.subjectivity
  let balanceScore := 1 - min |sr.textblob.polarity| (1/2) * 2
  pyRound (keywordScore * (4/10) + objectivityScore * (4/10) +
    balanceScore * (2/10)) 2

/-- Model of `CandidateEvaluator.calculate_engagement`. -/
def calculate_engagement (text : String) (sr : SentimentResult) : ℚ :=
  let lengthScore := min (((pySplitWs text).length : ℚ) / 200) 1
  let sentimentConfidence := sr.overall_confidence
  pyRound (lengthScore * (3/10) + sentimentConfidence * (4/10) +
    vocabDiversity text * (3/10)) 2

/-- The `scores` dict built by `CandidateEvaluator.evaluate`, in insertion
order. -/
def evalScoresList (text : String) (sr : SentimentResult) : List (String × ℚ) :=
  [("communication_clarity", calculate_communication_clarity text sr),
   ("confidence", calculate_confidence text sr),
   ("enthusiasm", calculate_enthusiasm text sr),
   ("professionalism", calculate_professionalism text sr),
   ("engagement", calculate_engagement text sr)]

/-- Model of `CandidateEvaluator.evaluate`: empty or whitespace-only text is
rejected with a fixed error dict; a missing text analyzer yields another
error dict; an analyzer error dict is passed through; otherwise the five
parameter scores are computed and the overall score is their mean rounded to
two decimals. -/
def evaluate (tb : TBOracle) (vd : VaderOracle) (analyzerAvailable : Bool)
    (text : String) : EvalResult :=
  if pyStrip text = "" then
    EvalResult.err "No text provided for evaluation" []
  else if analyzerAvailable then
    match TextAnalyzer.analyze tb vd text with
    | AnalyzeResult.emptyErr e t => EvalResult.analyzeErr e t
    | AnalyzeResult.ok sr =>
        let scores := evalScoresList text sr
        EvalResult.ok text text.length (pySplitWs text).length scores
          (pyRound ((scores.map Prod.snd).sum / (scores.length : ℚ)) 2)
          sr.overall_label sr.overall_confidence sr.textblob sr.vader
  else
    EvalResult.err
      "Text analyzer not available. Install dependencies: pip install textblob vaderSentiment nltk"
      []

end CandidateEvaluator

lemma roundHalfEven_intCast (k : ℤ) : roundHalfEven (k : ℚ) = k := by
  unfold roundHalfEven
  rw [Int.floor_intCast]
  norm_num

lemma pyRound_fix (nd : Nat) (k : ℤ) :
    pyRound ((k : ℚ) / (10 : ℚ) ^ nd) nd = (k : ℚ) / (10 : ℚ) ^ nd := by
  unfold pyRound
  rw [div_mul_cancel₀ _ (by positivity : ((10 : ℚ) ^ nd) ≠ 0), roundHalfEven_intCast]

lemma pyRound_idem (q : ℚ) (nd : Nat) :
    pyRound (pyRound q nd) nd = pyRound q nd :=
  pyRound_fix nd (roundHalfEven (q * (10 : ℚ) ^ nd))

namespace CandidateEvaluator

lemma calculate_communication_clarity_rounded (text : String) (sr : SentimentResult) :
    pyRound (calculate_communication_clarity text sr) 2 =
      calculate_communication_clarity text sr := by
  unfold calculate_communication_clarity
  by_cases hs : sentencesOf text = []
  · rw [if_pos hs]
    have h12 : (1/2 : ℚ) = ((50 : ℤ) : ℚ) / (10 : ℚ) ^ 2 := by norm_num
    rw [h12, pyRound_fix]
  · rw [if_neg hs]
    exact pyRound_idem _ 2

lemma calculate_confidence_rounded (text : String) (sr : SentimentResult) :
    pyRound (calculate_confidence text sr) 2 = calculate_confidence text sr :=
  pyRound_idem _ 2

lemma calculate_enthusiasm_rounded (text : String) (sr : SentimentResult) :
    pyRound (calculate_enthusiasm text sr) 2 = calculate_enthusiasm text sr :=
  pyRound_idem _ 2

lemma calculate_professionalism_rounded (text : String) (sr : SentimentResult) :
    pyRound (calculate_professionalism text sr) 2 = calculate_professionalism text sr :=
  pyRound_idem _ 2

lemma calculate_engagement_rounded (text : String) (sr : SentimentResult) :
    pyRound (calculate_engagement text sr) 2 = calculate_engagement text sr :=
  pyRound_idem _ 2

end CandidateEvaluator

lemma roundHalfEven_ge (x : ℚ) (C : ℤ) (h : (C : ℚ) ≤ x) : C ≤ roundHalfEven x := by
  have hf : C ≤ ⌊x⌋ := Int.le_floor.mpr h
  unfold roundHalfEven
  split_ifs <;> omega

lemma roundHalfEven_le (x : ℚ) (C : ℤ) (h : x ≤ (C : ℚ)) : roundHalfEven x ≤ C := by
  have hfl : (⌊x⌋ : ℚ) ≤ x := Int.floor_le x
  have hfC : ⌊x⌋ ≤ C := by
    have h2 := Int.floor_le_floor h
    rwa [Int.floor_intCast] at h2
  unfold roundHalfEven
  split_ifs with h1 h2 h3
  · exact hfC
  · have hQ : (⌊x⌋ : ℚ) < (C : ℚ) := by linarith
    have hZ : ⌊x⌋ < C := by exact_mod_cast hQ
    omega
  · exact hfC
  · have h1' : (1 : ℚ)/2 ≤ x - (⌊x⌋ : ℚ) := not_lt.mp h1
    have hQ : (⌊x⌋ : ℚ) < (C : ℚ) := by linarith
    have hZ : ⌊x⌋ < C := by exact_mod_cast hQ
    omega

lemma pyRound_le (q : ℚ) (nd : Nat) (C : ℤ) (h : q ≤ (C : ℚ)) :
    pyRound q nd ≤ (C : ℚ) := by
  have hs : (0 : ℚ) < (10 : ℚ) ^ nd := by positivity
  have h1 : roundHalfEven (q * (10 : ℚ) ^ nd) ≤ C * (10 : ℤ) ^ nd := by
    apply roundHalfEven_le
    push_cast
    exact mul_le_mul_of_nonneg_right h hs.le
  unfold pyRound
  rw [div_le_iff₀ hs]
  calc ((roundHalfEven (q * (10 : ℚ) ^ nd) : ℤ) : ℚ)
      ≤ ((C * (10 : ℤ) ^ nd : ℤ) : ℚ) := by exact_mod_cast h1
    _ = (C : ℚ) * (10 : ℚ) ^ nd := by push_cast; ring

lemma pyRound_ge (q : ℚ) (nd : Nat) (C : ℤ) (h : (C : ℚ) ≤ q) :
    (C : ℚ) ≤ pyRound q nd := by
  have hs : (0 : ℚ) < (10 : ℚ) ^ nd := by positivity
  have h1 : C * (10 : ℤ) ^ nd ≤ roundHalfEven (q * (10 : ℚ) ^ nd) := by
    apply roundHalfEven_ge
    push_cast
    exact mul_le_mul_of_nonneg_right h hs.le
  unfold pyRound
  rw [le_div_iff₀ hs]
  calc (C : ℚ) * (10 : ℚ) ^ nd
      = ((C * (10 : ℤ) ^ nd : ℤ) : ℚ) := by push_cast; ring
    _ ≤ ((roundHalfEven (q * (10 : ℚ) ^ nd) : ℤ) : ℚ) := by exact_mod_cast h1

lemma pyRound_unit (q : ℚ) (nd : Nat) (h0 : 0 ≤ q) (h1 : q ≤ 1) :
    0 ≤ pyRound q nd ∧ pyRound q nd ≤ 1 := by
  constructor
  · have h2 := pyRound_ge q nd 0 (by exact_mod_cast h0)
    exact_mod_cast h2
  · have h2 := pyRound_le q nd 1 (by exact_mod_cast h1)
    exact_mod_cast h2

lemma pyRound_pm (q : ℚ) (nd : Nat) (h0 : -1 ≤ q) (h1 : q ≤ 1) :
    -1 ≤ pyRound q nd ∧ pyRound q nd ≤ 1 := by
  constructor
  · have h2 := pyRound_ge q nd (-1) (by exact_mod_cast h0)
    exact_mod_cast h2
  · have h2 := pyRound_le q nd 1 (by exact_mod_cast h1)
    exact_mod_cast h2

lemma comb3_unit (a b c wa wb wc : ℚ) (ha : 0 ≤ a) (ha' : a ≤ 1) (hb : 0 ≤ b)
    (hb' : b ≤ 1) (hc : 0 ≤ c) (hc' : c ≤ 1) (hwa : 0 ≤ wa) (hwb : 0 ≤ wb)
    (hwc : 0 ≤ wc) (hsum : wa + wb + wc = 1) :
    0 ≤ a * wa + b * wb + c * wc ∧ a * wa + b * wb + c * wc ≤ 1 := by
  constructor
  · positivity
  · have h1 : a * wa ≤ wa := by nlinarith
    have h2 : b * wb ≤ wb := by nlinarith
    have h3 : c * wc ≤ wc := by nlinarith
    linarith

namespace CandidateEvaluator

lemma vocabDiversity_bounds (text : String) :
    0 ≤ vocabDiversity text ∧ vocabDiversity text ≤ 1 := by
  simp only [vocabDiversity]
  by_cases h : pySplitWs (pyLower text) = []
  · rw [if_pos h]
    norm_num
  · rw [if_neg h]
    have hpos : 0 < ((pySplitWs (pyLower text)).length : ℚ) := by
      have h2 := List.length_pos.mpr h
      exact_mod_cast h2
    constructor
    · positivity
    · rw [div_le_one hpos]
      have hle : (pySplitWs (pyLower text)).dedup.length ≤
          (pySplitWs (pyLower text)).length := (List.dedup_sublist _).length_le
      exact_mod_cast hle

lemma keywordScore_bounds (keywords : List String) (t : String) :
    0 ≤ min ((countKeyword keywords t : ℚ) / 5) 1 ∧
      min ((countKeyword keywords t : ℚ) / 5) 1 ≤ 1 := by
  constructor
  · apply le_min
    · positivity
    · norm_num
  · exact min_le_right _ _

lemma calculate_communication_clarity_bounds (text : String) (sr : SentimentResult)
    (hs1 : 0 ≤ sr.textblob.subjectivity) (hs2 : sr.textblob.subjectivity ≤ 1) :
    0 ≤ calculate_communication_clarity text sr ∧
      calculate_communication_clarity text sr ≤ 1 := by
  simp only [calculate_communication_clarity]
  by_cases hsen : sentencesOf text = []
  · rw [if_pos hsen]
    norm_num
  · rw [if_neg hsen]
    have hV := vocabDiversity_bounds text
    have hE := comb3_unit
      (max 0 (min 1 (1 - |(List.map (fun s => ((pySplitWs s).length : ℚ))
          (sentencesOf text)).sum / ((sentencesOf text).length : ℚ) - 35/2| / (35/2))))
      (vocabDiversity text) (1 - sr.textblob.subjectivity) (3/10) (4/10) (3/10)
      (le_max_left _ _) (max_le (by norm_num) (min_le_left _ _))
      hV.1 hV.2 (by linarith) (by linarith)
      (by norm_num) (by norm_num) (by norm_num) (by norm_num)
    exact pyRound_unit _ 2 hE.1 hE.2

lemma calculate_confidence_bounds (text : String) (sr : SentimentResult)
    (hp1 : -1 ≤ sr.textblob.polarity) (hp2 : sr.textblob.polarity ≤ 1)
    (hc1 : -1 ≤ sr.vader.compound) (hc2 : sr.vader.compound ≤ 1) :
    0 ≤ calculate_confidence text sr ∧ calculate_confidence text sr ≤ 1 := by
  simp only [calculate_confidence]
  have hK := keywordScore_bounds confidence_keywords (pyLower text)
  have hE := comb3_unit
    (min ((countKeyword confidence_keywords (pyLower text) : ℚ) / 5) 1)
    ((sr.textblob.polarity + 1) / 2) ((sr.vader.compound + 1) / 2)
    (3/10) (35/100) (35/100)
    hK.1 hK.2 (by linarith) (by linarith) (by linarith) (by linarith)
    (by norm_num) (by norm_num) (by norm_num) (by norm_num)
  exact pyRound_unit _ 2 hE.1 hE.2

lemma calculate_enthusiasm_bounds (text : String) (sr : SentimentResult)
    (hp2 : sr.textblob.polarity ≤ 1)
    (hv1 : 0 ≤ sr.vader.positive) (hv2 : sr.vader.positive ≤ 1) :
    0 ≤ calculate_enthusiasm text sr ∧ calculate_enthusiasm text sr ≤ 1 := by
  simp only [calculate_enthusiasm]
  have hK := keywordScore_bounds enthusiasm_keywords (pyLower text)
  have hE := comb3_unit
    (min ((countKeyword enthusiasm_keywords (pyLower text) : ℚ) / 5) 1)
    (max 0 sr.textblob.polarity) sr.vader.positive (3/10) (4/10) (3/10)
    hK.1 hK.2 (le_max_left _ _) (max_le (by norm_num) hp2) hv1 hv2
    (by norm_num) (by norm_num) (by norm_num) (by norm_num)
  exact pyRound_unit _ 2 hE.1 hE.2

lemma calculate_professionalism_bounds (text : String) (sr : SentimentResult)
    (hs1 : 0 ≤ sr.textblob.subjectivity) (hs2 : sr.textblob.subjectivity ≤ 1) :
    0 ≤ calculate_professionalism text sr ∧ calculate_professionalism text sr ≤ 1 := by
  simp only [calculate_professionalism]
  have hK := keywordScore_bounds professional_keywords (pyLower text)
  have hmin1 : 0 ≤ min |sr.textblob.polarity| (1/2 : ℚ) :=
    le_min (abs_nonneg _) (by norm_num)
  have hmin2 : min |sr.textblob.polarity| (1/2 : ℚ) ≤ 1/2 := min_le_right _ _
  have hE := comb3_unit
    (min ((countKeyword professional_keywords (pyLower text) : ℚ) / 5) 1)
    (1 - sr.textblob.subjectivity)
    (1 - min |sr.textblob.polarity| (1/2) * 2) (4/10) (4/10) (2/10)
    hK.1 hK.2 (by linarith) (by linarith) (by linarith) (by linarith)
    (by norm_num) (by norm_num) (by norm_num) (by norm_num)
  exact pyRound_unit _ 2 hE.1 hE.2

lemma calculate_engagement_bounds (text : String) (sr : SentimentResult)
    (ho1 : 0 ≤ sr.overall_confidence) (ho2 : sr.overall_confidence ≤ 1) :
    0 ≤ calculate_engagement text sr ∧ calculate_engagement text sr ≤ 1 := by
  simp only [calculate_engagement]
  have hV := vocabDiversity_bounds text
  have hL1 : (0 : ℚ) ≤ min (((pySplitWs text).length : ℚ) / 200) 1 :=
    le_min (by positivity) (by norm_num)
  have hE := comb3_unit
    (min (((pySplitWs text).length : ℚ) / 200) 1) sr.overall_confidence
    (vocabDiversity text) (3/10) (4/10) (3/10)
    hL1 (min_le_right _ _) ho1 ho2 hV.1 hV.2
    (by norm_num) (by norm_num) (by norm_num) (by norm_num)
  exact pyRound_unit _ 2 hE.1 hE.2

end CandidateEvaluator

lemma analyzeOk_fields_bounds (tb : TBOracle) (vd : VaderOracle) (cleaned : String)
    (htb1 : -1 ≤ (tb cleaned).polarity) (htb2 : (tb cleaned).polarity ≤ 1)
    (htb3 : 0 ≤ (tb cleaned).subjectivity) (htb4 : (tb cleaned).subjectivity ≤ 1)
    (hvd1 : -1 ≤ (vd cleaned).compound) (hvd2 : (vd cleaned).compound ≤ 1)
    (hvd3 : 0 ≤ (vd cleaned).pos) (hvd4 : (vd cleaned).pos ≤ 1) :
    (-1 ≤ (TextAnalyzer.analyzeOk tb vd cleaned).textblob.polarity ∧
      (TextAnalyzer.analyzeOk tb vd cleaned).textblob.polarity ≤ 1) ∧
    (0 ≤ (TextAnalyzer.analyzeOk tb vd cleaned).textblob.subjectivity ∧
      (TextAnalyzer.analyzeOk tb vd cleaned).textblob.subjectivity ≤ 1) ∧
    (-1 ≤ (TextAnalyzer.analyzeOk tb vd cleaned).vader.compound ∧
      (TextAnalyzer.analyzeOk tb vd cleaned).vader.compound ≤ 1) ∧
    (0 ≤ (TextAnalyzer.analyzeOk tb vd cleaned).vader.positive ∧
      (TextAnalyzer.analyzeOk tb vd cleaned).vader.positive ≤ 1) ∧
    (0 ≤ (TextAnalyzer.analyzeOk tb vd cleaned).overall_confidence ∧
      (TextAnalyzer.analyzeOk tb vd cleaned).overall_confidence ≤ 1) := by
  have habs1 : 0 ≤ |(tb cleaned).polarity| := abs_nonneg _
  have habs2 : |(tb cleaned).polarity| ≤ 1 := abs_le.mpr ⟨htb1, htb2⟩
  have habs3 : 0 ≤ |(vd cleaned).compound| := abs_nonneg _
  have habs4 : |(vd cleaned).compound| ≤ 1 := abs_le.mpr ⟨hvd1, hvd2⟩
  have hconf1 := pyRound_unit |(tb cleaned).polarity| 3 habs1 habs2
  have hconf2 := pyRound_unit |(vd cleaned).compound| 3 habs3 habs4
  simp only [TextAnalyzer.analyzeOk, TextAnalyzer.analyze_with_textblob,
    TextAnalyzer.analyze_with_vader]
  refine ⟨pyRound_pm _ 3 htb1 htb2, pyRound_unit _ 3 htb3 htb4,
    pyRound_pm _ 3 hvd1 hvd2, pyRound_unit _ 3 hvd3 hvd4, ?_⟩
  exact pyRound_unit _ 3 (by linarith [hconf1.1, hconf2.1])
    (by linarith [hconf1.2, hconf2.2])

/-- C8: with the sentiment components in their documented ranges (TextBlob
polarity in `[-1, 1]` and subjectivity in `[0, 1]`, VADER compound in
`[-1, 1]` and positive in `[0, 1]`, overall confidence in `[0, 1]`), each of
the five score functions of `CandidateEvaluator` returns a value in `[0, 1]`,
and consequently the `overall_score` computed by `evaluate` also lies in
`[0, 1]`. -/
theorem evaluator_scores_in_unit_interval
    (text : String) (sr : SentimentResult) (tb : TBOracle) (vd : VaderOracle)
    (hp1 : -1 ≤ sr.textblob.polarity) (hp2 : sr.textblob.polarity ≤ 1)
    (hs1 : 0 ≤ sr.textblob.subjectivity) (hs2 : sr.textblob.subjectivity ≤ 1)
    (hc1 : -1 ≤ sr.vader.compound) (hc2 : sr.vader.compound ≤ 1)
    (hv1 : 0 ≤ sr.vader.positive) (hv2 : sr.vader.positive ≤ 1)
    (ho1 : 0 ≤ sr.overall_confidence) (ho2 : sr.overall_confidence ≤ 1)
    (htb1 : ∀ s, -1 ≤ (tb s).polarity) (htb2 : ∀ s, (tb s).polarity ≤ 1)
    (htb3 : ∀ s, 0 ≤ (tb s).subjectivity) (htb4 : ∀ s, (tb s).subjectivity ≤ 1)
    (hvd1 : ∀ s, -1 ≤ (vd s).compound) (hvd2 : ∀ s, (vd s).compound ≤ 1)
    (hvd3 : ∀ s, 0 ≤ (vd s).pos) (hvd4 : ∀ s, (vd s).pos ≤ 1) :
    (0 ≤ CandidateEvaluator.calculate_communication_clarity text sr ∧
      CandidateEvaluator.calculate_communication_clarity text sr ≤ 1) ∧
    (0 ≤ CandidateEvaluator.calculate_confidence text sr ∧
      CandidateEvaluator.calculate_confidence text sr ≤ 1) ∧
    (0 ≤ CandidateEvaluator.calculate_enthusiasm text sr ∧
      CandidateEvaluator.calculate_enthusiasm text sr ≤ 1) ∧
    (0 ≤ CandidateEvaluator.calculate_professionalism text sr ∧
      CandidateEvaluator.calculate_professionalism text sr ≤ 1) ∧
    (0 ≤ CandidateEvaluator.calculate_engagement text sr ∧
      CandidateEvaluator.calculate_engagement text sr ≤ 1) ∧
    optInUnitInterval (CandidateEvaluator.evaluate tb vd true text).overallOf := by
  refine ⟨CandidateEvaluator.calculate_communication_clarity_bounds text sr hs1 hs2,
    CandidateEvaluator.calculate_confidence_bounds text sr hp1 hp2 hc1 hc2,
    CandidateEvaluator.calculate_enthusiasm_bounds text sr hp2 hv1 hv2,
    CandidateEvaluator.calculate_professionalism_bounds text sr hs1 hs2,
    CandidateEvaluator.calculate_engagement_bounds text sr ho1 ho2, ?_⟩
  by_cases h : pyStrip text = ""
  · simp [CandidateEvaluator.evaluate, h, EvalResult.overallOf, optInUnitInterval]
  · have hA := analyzeOk_fields_bounds tb vd (TextAnalyzer.clean_text text)
      (htb1 _) (htb2 _) (htb3 _) (htb4 _) (hvd1 _) (hvd2 _) (hvd3 _) (hvd4 _)
    have hb1 := CandidateEvaluator.calculate_communication_clarity_bounds text
      (TextAnalyzer.analyzeOk tb vd (TextAnalyzer.clean_text text)) hA.2.1.1 hA.2.1.2
    have hb2 := CandidateEvaluator.calculate_confidence_bounds text
      (TextAnalyzer.analyzeOk tb vd (TextAnalyzer.clean_text text)) hA.1.1 hA.1.2
      hA.2.2.1.1 hA.2.2.1.2
    have hb3 := CandidateEvaluator.calculate_enthusiasm_bounds text
      (TextAnalyzer.analyzeOk tb vd (TextAnalyzer.clean_text text)) hA.1.2
      hA.2.2.2.1.1 hA.2.2.2.1.2
    have hb4 := CandidateEvaluator.calculate_professionalism_bounds text
      (TextAnalyzer.analyzeOk tb vd (TextAnalyzer.clean_text text)) hA.2.1.1 hA.2.1.2
    have hb5 := CandidateEvaluator.calculate_engagement_bounds text
      (TextAnalyzer.analyzeOk tb vd (TextAnalyzer.clean_text text)) hA.2.2.2.2.1
      hA.2.2.2.2.2
    have hmean := pyRound_unit
      ((CandidateEvaluator.calculate_communication_clarity text
          (TextAnalyzer.analyzeOk tb vd (TextAnalyzer.clean_text text)) +
        (CandidateEvaluator.calculate_confidence text
          (TextAnalyzer.analyzeOk tb vd (TextAnalyzer.clean_text text)) +
        (CandidateEvaluator.calculate_enthusiasm text
          (TextAnalyzer.analyzeOk tb vd (TextAnalyzer.clean_text text)) +
        (CandidateEvaluator.calculate_professionalism text
          (TextAnalyzer.analyzeOk tb vd (TextAnalyzer.clean_text text)) +
        (CandidateEvaluator.calculate_engagement text
          (TextAnalyzer.analyzeOk tb vd (TextAnalyzer.clean_text text)) + 0))))) / 5) 2
      (by linarith [hb1.1, hb2.1, hb3.1, hb4.1, hb5.1])
      (by linarith [hb1.2, hb2.2, hb3.2, hb4.2, hb5.2])
    simp only [CandidateEvaluator.evaluate, TextAnalyzer.analyze, h, if_neg,
      if_true, if_false, ite_false, ite_true, not_false_iff,
      CandidateEvaluator.evalScoresList, EvalResult.overallOf, List.map_cons,
      List.map_nil, List.sum_cons, List.sum_nil, List.length_cons, List.length_nil,
      optInUnitInterval]
    norm_num at hmean ⊢
    exact hmean

/-- C8 witness: concrete neutral sentiment values inside all documented
ranges. -/
theorem evaluator_scores_in_unit_interval_witness :
    (0 ≤ CandidateEvaluator.calculate_communication_clarity "Hello world."
        ⟨"", 0, 0, "", 0, ⟨0, 0, "", 0⟩, ⟨0, 0, 0, 0, "", 0⟩⟩ ∧
      CandidateEvaluator.calculate_communication_clarity "Hello world."
        ⟨"", 0, 0, "", 0, ⟨0, 0, "", 0⟩, ⟨0, 0, 0, 0, "", 0⟩⟩ ≤ 1) ∧
    (0 ≤ CandidateEvaluator.calculate_confidence "Hello world."
        ⟨"", 0, 0, "", 0, ⟨0, 0, "", 0⟩, ⟨0, 0, 0, 0, "", 0⟩⟩ ∧
      CandidateEvaluator.calculate_confidence "Hello world."
        ⟨"", 0, 0, "", 0, ⟨0, 0, "", 0⟩, ⟨0, 0, 0, 0, "", 0⟩⟩ ≤ 1) ∧
    (0 ≤ CandidateEvaluator.calculate_enthusiasm "Hello world."
        ⟨"", 0, 0, "", 0, ⟨0, 0, "", 0⟩, ⟨0, 0, 0, 0, "", 0⟩⟩ ∧
      CandidateEvaluator.calculate_enthusiasm "Hello world."
        ⟨"", 0, 0, "", 0, ⟨0, 0, "", 0⟩, ⟨0, 0, 0, 0, "", 0⟩⟩ ≤ 1) ∧
    (0 ≤ CandidateEvaluator.calculate_professionalism "Hello world."
        ⟨"", 0, 0, "", 0, ⟨0, 0, "", 0⟩, ⟨0, 0, 0, 0, "", 0⟩⟩ ∧
      CandidateEvaluator.calculate_professionalism "Hello world."
        ⟨"", 0, 0, "", 0, ⟨0, 0, "", 0⟩, ⟨0, 0, 0, 0, "", 0⟩⟩ ≤ 1) ∧
    (0 ≤ CandidateEvaluator.calculate_engagement "Hello world."
        ⟨"", 0, 0, "", 0, ⟨0, 0, "", 0⟩, ⟨0, 0, 0, 0, "", 0⟩⟩ ∧
      CandidateEvaluator.calculate_engagement "Hello world."
        ⟨"", 0, 0, "", 0, ⟨0, 0, "", 0⟩, ⟨0, 0, 0, 0, "", 0⟩⟩ ≤ 1) ∧
    optInUnitInterval (CandidateEvaluator.evaluate (fun _ => ⟨0, 0⟩)
      (fun _ => ⟨0, 0, 0, 0⟩) true "Hello world.").overallOf :=
  evaluator_scores_in_unit_interval "Hello world."
    ⟨"", 0, 0, "", 0, ⟨0, 0, "", 0⟩, ⟨0, 0, 0, 0, "", 0⟩⟩
    (fun _ => ⟨0, 0⟩) (fun _ => ⟨0, 0, 0, 0⟩)
    (by decide) (by decide) (by decide) (by decide) (by decide) (by decide)
    (by decide) (by decide) (by decide) (by decide)
    (fun _ => show (-1 : ℚ) ≤ 0 by decide) (fun _ => show (0 : ℚ) ≤ 1 by decide)
    (fun _ => show (0 : ℚ) ≤ 0 by decide) (fun _ => show (0 : ℚ) ≤ 1 by decide)
    (fun _ => show (-1 : ℚ) ≤ 0 by decide) (fun _ => show (0 : ℚ) ≤ 1 by decide)
    (fun _ => show (0 : ℚ) ≤ 0 by decide) (fun _ => show (0 : ℚ) ≤ 1 by decide)

/-- C9: both text-scoring entry points reject empty or whitespace-only input
without running any analysis: `CandidateEvaluator.evaluate` returns the fixed
error dict with an empty `scores` dict, and `TextAnalyzer.analyze` returns
the dict with the `error` key `"Empty text provided"` and `text` set to the
empty string; both are total functions, so neither raises. -/
theorem empty_text_rejected (tb : TBOracle) (vd : VaderOracle)
    (analyzerAvailable : Bool) (text : String) (h : pyStrip text = "") :
    CandidateEvaluator.evaluate tb vd analyzerAvailable text =
      EvalResult.err "No text provided for evaluation" [] ∧
    TextAnalyzer.analyze tb vd text =
      AnalyzeResult.emptyErr "Empty text provided" "" := by
  constructor
  · simp [CandidateEvaluator.evaluate, h]
  · simp [TextAnalyzer.analyze, h]

/-- C9 witness: the whitespace-only input `"   "` is rejected by both entry
points with the exact error dicts. -/
theorem empty_text_rejected_witness :
    pyStrip "   " = "" ∧
    CandidateEvaluator.evaluate (fun _ => ⟨0, 0⟩) (fun _ => ⟨0, 0, 0, 0⟩) true "   " =
      EvalResult.err "No text provided for evaluation" [] ∧
    TextAnalyzer.analyze (fun _ => ⟨0, 0⟩) (fun _ => ⟨0, 0, 0, 0⟩) "   " =
      AnalyzeResult.emptyErr "Empty text provided" "" :=
  ⟨by decide,
   empty_text_rejected (fun _ => ⟨0, 0⟩) (fun _ => ⟨0, 0, 0, 0⟩) true "   " (by decide)⟩

/-- C6: on non-empty text with the analyzer available (its success case),
`CandidateEvaluator.evaluate` returns a `scores` dict with exactly the five
keys `communication_clarity`, `confidence`, `enthusiasm`, `professionalism`
and `engagement`, each value a fixed point of rounding to two decimals, and
`overall_score` equal to the mean of the five score values rounded to two
decimals. -/
theorem evaluate_scores_shape (tb : TBOracle) (vd : VaderOracle) (text : String)
    (h : pyStrip text ≠ "") :
    (CandidateEvaluator.evaluate tb vd true text).scoresOf.map Prod.fst =
      ["communication_clarity", "confidence", "enthusiasm", "professionalism",
       "engagement"] ∧
    (∀ p ∈ (CandidateEvaluator.evaluate tb vd true text).scoresOf,
      pyRound p.2 2 = p.2) ∧
    (CandidateEvaluator.evaluate tb vd true text).overallOf =
      some (pyRound
        (((CandidateEvaluator.evaluate tb vd true text).scoresOf.map Prod.snd).sum / 5)
        2) := by
  refine ⟨?_, ?_, ?_⟩
  · simp [CandidateEvaluator.evaluate, TextAnalyzer.analyze, h,
      CandidateEvaluator.evalScoresList, EvalResult.scoresOf]
  · simp [CandidateEvaluator.evaluate, TextAnalyzer.analyze, h,
      CandidateEvaluator.evalScoresList, EvalResult.scoresOf,
      CandidateEvaluator.calculate_communication_clarity_rounded,
      CandidateEvaluator.calculate_confidence_rounded,
      CandidateEvaluator.calculate_enthusiasm_rounded,
      CandidateEvaluator.calculate_professionalism_rounded,
      CandidateEvaluator.calculate_engagement_rounded]
  · simp [CandidateEvaluator.evaluate, TextAnalyzer.analyze, h,
      CandidateEvaluator.evalScoresList, EvalResult.scoresOf, EvalResult.overallOf]

/-- C6 witness: a concrete non-empty text with neutral oracle outputs. -/
theorem evaluate_scores_shape_witness :
    pyStrip "Hello world." ≠ "" ∧
    ((CandidateEvaluator.evaluate (fun _ => ⟨0, 0⟩) (fun _ => ⟨0, 0, 0, 0⟩) true
        "Hello world.").scoresOf.map Prod.fst =
      ["communication_clarity", "confidence", "enthusiasm", "professionalism",
       "engagement"] ∧
    (∀ p ∈ (CandidateEvaluator.evaluate (fun _ => ⟨0, 0⟩) (fun _ => ⟨0, 0, 0, 0⟩) true
        "Hello world.").scoresOf, pyRound p.2 2 = p.2) ∧
    (CandidateEvaluator.evaluate (fun _ => ⟨0, 0⟩) (fun _ => ⟨0, 0, 0, 0⟩) true
        "Hello world.").overallOf =
      some (pyRound
        (((CandidateEvaluator.evaluate (fun _ => ⟨0, 0⟩) (fun _ => ⟨0, 0, 0, 0⟩) true
          "Hello world.").scoresOf.map Prod.snd).sum / 5) 2)) :=
  ⟨by decide,
   evaluate_scores_shape (fun _ => ⟨0, 0⟩) (fun _ => ⟨0, 0, 0, 0⟩) "Hello world."
     (by decide)⟩

/-- Grayscale face image, as produced by `cv2.cvtColor(..., COLOR_BGR2GRAY)`
(the colour conversion is the external library's job): height, width, and the
pixel value at each row/column. -/
structure GrayImage where
  h : Nat
  w : Nat
  px : Nat → Nat → ℚ

/-- Sum of the pixel values over rows `[r0, r1)` and columns `[c0, c1)`. -/
def regionSum (g : GrayImage) (r0 r1 c0 c1 : Nat) : ℚ :=
  ∑ i in Finset.Ico r0 r1, ∑ j in Finset.Ico c0 c1, g.px i j

/-- Model of `np.mean` over the rectangular region with rows `[r0, r1)` and
columns `[c0, c1)` (division by zero yields `0` in `ℚ` for an empty region). -/
def regionMean (g : GrayImage) (r0 r1 c0 c1 : Nat) : ℚ :=
  regionSum g r0 r1 c0 c1 / (((r1 - r0) * (c1 - c0) : Nat) : ℚ)

/-- Scores dict returned by the facial-expression analysis functions: the
four interview parameters. -/
structure Scores4 where
  confidence : ℚ
  authenticity : ℚ
  leadership : ℚ
  pressure_handling : ℚ
deriving DecidableEq

/-- The default scores returned when no analysis is possible. -/
def defaultScores : Scores4 := ⟨1/2, 1/2, 1/2, 1/2⟩

namespace FacialExpressionAnalyzer

/-- Model of `FacialExpressionAnalyzer.analyze_expression_rule_based`.  The
row cut `int(h*0.4)` is `h * 2 / 5` in exact arithmetic; the
`mouth_brightness` binding of the source is computed but never used and is
not modelled; `head_straight` is computed from `w/2` exactly as in the
source (and therefore always equals `1` for `w > 0`). -/
def analyze_expression_rule_based (cv2Available numpyAvailable : Bool)
    (faceImage : Option GrayImage) : Scores4 :=
  match faceImage with
  | none => defaultScores
  | some g =>
    if cv2Available && numpyAvailable then
      let eyeBrightness := regionMean g 0 (g.h * 2 / 5) 0 g.w / 255
      let symmetry :=
        1 - |regionMean g 0 g.h 0 (g.w / 2) - regionMean g 0 g.h (g.w / 2) g.w| / 255
      let headStraight : ℚ :=
        1 - min (|(g.w : ℚ) / 2 - (g.w : ℚ) / 2| / ((g.w : ℚ) / 2)) 1
      { confidence := min (7/10) (eyeBrightness * (5/10) + headStraight * (5/10))
        authenticity := min (75/100) (symmetry * (6/10) + headStraight * (4/10))
        leadership := min (65/100) (eyeBrightness * (4/10) + headStraight * (6/10))
        pressure_handling :=
          min (7/10) (symmetry * (5/10) + eyeBrightness * (3/10) + headStraight * (2/10)) }
    else defaultScores

/-- Model of `FacialExpressionAnalyzer.analyze_expression_ml`: when the deep
learning stack is unavailable, the model is `None`, or the transform is
`None`, and likewise when the inference code raises (outcome `mlOutcome` is
an error), the rule-based fallback runs on the same face image; otherwise
the four model outputs are returned. -/
def analyze_expression_ml (dlAvailable hasModel hasTransform : Bool)
    (cv2Available numpyAvailable : Bool)
    (mlOutcome : Except String (ℚ × ℚ × ℚ × ℚ)) (faceImage : Option GrayImage) :
    Scores4 :=
  if dlAvailable && hasModel && hasTransform then
    match mlOutcome with
    | Except.ok (c, a, l, p) =>
        { confidence := c, authenticity := a, leadership := l, pressure_handling := p }
    | Except.error _ =>
        analyze_expression_rule_based cv2Available numpyAvailable faceImage
  else analyze_expression_rule_based cv2Available numpyAvailable faceImage

end FacialExpressionAnalyzer

lemma regionMean_bounds (g : GrayImage) (r0 r1 c0 c1 : Nat)
    (hpx : ∀ i j, i < g.h → j < g.w → 0 ≤ g.px i j ∧ g.px i j ≤ 255)
    (hr : r1 ≤ g.h) (hc : c1 ≤ g.w) :
    0 ≤ regionMean g r0 r1 c0 c1 ∧ regionMean g r0 r1 c0 c1 ≤ 255 := by
  unfold regionMean regionSum
  by_cases hn : ((r1 - r0) * (c1 - c0) : Nat) = 0
  · rw [hn]
    norm_num
  · have hpos : (0 : ℚ) < (((r1 - r0) * (c1 - c0) : Nat) : ℚ) := by
      exact_mod_cast Nat.pos_of_ne_zero hn
    have hsum0 : 0 ≤ ∑ i in Finset.Ico r0 r1, ∑ j in Finset.Ico c0 c1, g.px i j := by
      refine Finset.sum_nonneg fun i hi => Finset.sum_nonneg fun j hj => ?_
      exact (hpx i j (lt_of_lt_of_le (Finset.mem_Ico.mp hi).2 hr)
        (lt_of_lt_of_le (Finset.mem_Ico.mp hj).2 hc)).1
    have hsum1 : (∑ i in Finset.Ico r0 r1, ∑ j in Finset.Ico c0 c1, g.px i j) ≤
        (((r1 - r0) * (c1 - c0) : Nat) : ℚ) * 255 := by
      calc (∑ i in Finset.Ico r0 r1, ∑ j in Finset.Ico c0 c1, g.px i j)
          ≤ ∑ _i in Finset.Ico r0 r1, ∑ _j in Finset.Ico c0 c1, (255 : ℚ) := by
            refine Finset.sum_le_sum fun i hi => Finset.sum_le_sum fun j hj => ?_
            exact (hpx i j (lt_of_lt_of_le (Finset.mem_Ico.mp hi).2 hr)
              (lt_of_lt_of_le (Finset.mem_Ico.mp hj).2 hc)).2
        _ = (((r1 - r0) * (c1 - c0) : Nat) : ℚ) * 255 := by
            simp only [Finset.sum_const, Nat.card_Ico, smul_eq_mul]
            push_cast
            ring
    constructor
    · exact div_nonneg hsum0 hpos.le
    · rw [div_le_iff₀ hpos]
      linarith

/-- C7: `analyze_expression_ml` is total (it never raises) and produces the
four-parameter scores dict; whenever the deep-learning model is unavailable,
uninitialized, or its inference raises, the result is exactly the rule-based
fallback applied to the same face image. -/
theorem analyze_expression_ml_fallback (dl hm ht cv np : Bool)
    (mlOutcome : Except String (ℚ × ℚ × ℚ × ℚ)) (img : Option GrayImage) :
    ((dl = false ∨ hm = false ∨ ht = false) →
      FacialExpressionAnalyzer.analyze_expression_ml dl hm ht cv np mlOutcome img =
        FacialExpressionAnalyzer.analyze_expression_rule_based cv np img) ∧
    (∀ e : String, mlOutcome = Except.error e →
      FacialExpressionAnalyzer.analyze_expression_ml dl hm ht cv np mlOutcome img =
        FacialExpressionAnalyzer.analyze_expression_rule_based cv np img) := by
  constructor
  · intro hcond
    rcases hcond with h | h | h
    · subst h
      simp [FacialExpressionAnalyzer.analyze_expression_ml]
    · subst h
      simp [FacialExpressionAnalyzer.analyze_expression_ml]
    · subst h
      simp [FacialExpressionAnalyzer.analyze_expression_ml]
  · intro e he
    subst he
    cases dl <;> cases hm <;> cases ht <;>
      simp [FacialExpressionAnalyzer.analyze_expression_ml]

/-- C7 witness: with the deep-learning stack missing and the inference
outcome an exception, the result equals the rule-based fallback. -/
theorem analyze_expression_ml_fallback_witness :
    FacialExpressionAnalyzer.analyze_expression_ml false true true true true
        (Except.error "model boom") none =
      FacialExpressionAnalyzer.analyze_expression_rule_based true true none ∧
    FacialExpressionAnalyzer.analyze_expression_ml true true true true true
        (Except.error "model boom") none =
      FacialExpressionAnalyzer.analyze_expression_rule_based true true none :=
  ⟨(analyze_expression_ml_fallback false true true true true
      (Except.error "model boom") none).1 (Or.inl rfl),
   (analyze_expression_ml_fallback true true true true true
      (Except.error "model boom") none).2 "model boom" rfl⟩

/-- C10: on a grayscale face image with pixel values in `[0, 255]`, the
rule-based heuristic is capped per parameter: confidence in `[0, 0.7]`,
authenticity in `[0, 0.75]`, leadership in `[0, 0.65]`, pressure handling in
`[0, 0.7]`; and on a `None` face image it returns exactly `0.5` for all four
parameters. -/
theorem rule_based_bounds (g : GrayImage)
    (hpx : ∀ i j, i < g.h → j < g.w → 0 ≤ g.px i j ∧ g.px i j ≤ 255) :
    (0 ≤ (FacialExpressionAnalyzer.analyze_expression_rule_based true true
        (some g)).confidence ∧
      (FacialExpressionAnalyzer.analyze_expression_rule_based true true
        (some g)).confidence ≤ 7/10) ∧
    (0 ≤ (FacialExpressionAnalyzer.analyze_expression_rule_based true true
        (some g)).authenticity ∧
      (FacialExpressionAnalyzer.analyze_expression_rule_based true true
        (some g)).authenticity ≤ 75/100) ∧
    (0 ≤ (FacialExpressionAnalyzer.analyze_expression_rule_based true true
        (some g)).leadership ∧
      (FacialExpressionAnalyzer.analyze_expression_rule_based true true
        (some g)).leadership ≤ 65/100) ∧
    (0 ≤ (FacialExpressionAnalyzer.analyze_expression_rule_based true true
        (some g)).pressure_handling ∧
      (FacialExpressionAnalyzer.analyze_expression_rule_based true true
        (some g)).pressure_handling ≤ 7/10) ∧
    FacialExpressionAnalyzer.analyze_expression_rule_based true true none =
      ⟨1/2, 1/2, 1/2, 1/2⟩ := by
  have hEye := regionMean_bounds g 0 (g.h * 2 / 5) 0 g.w hpx (by omega) le_rfl
  have hL := regionMean_bounds g 0 g.h 0 (g.w / 2) hpx le_rfl (by omega)
  have hR := regionMean_bounds g 0 g.h (g.w / 2) g.w hpx le_rfl le_rfl
  have hhs : (1 : ℚ) - min (|(g.w : ℚ) / 2 - (g.w : ℚ) / 2| / ((g.w : ℚ) / 2)) 1 = 1 := by
    rw [sub_self, abs_zero, zero_div]
    norm_num
  have heB1 : 0 ≤ regionMean g 0 (g.h * 2 / 5) 0 g.w / 255 :=
    div_nonneg hEye.1 (by norm_num)
  have heB2 : regionMean g 0 (g.h * 2 / 5) 0 g.w / 255 ≤ 1 := by
    rw [div_le_one (by norm_num : (0 : ℚ) < 255)]
    exact hEye.2
  have habs : |regionMean g 0 g.h 0 (g.w / 2) - regionMean g 0 g.h (g.w / 2) g.w| ≤ 255 :=
    abs_le.mpr ⟨by linarith [hL.1, hR.2], by linarith [hL.2, hR.1]⟩
  have hsym1 : 0 ≤ 1 -
      |regionMean g 0 g.h 0 (g.w / 2) - regionMean g 0 g.h (g.w / 2) g.w| / 255 := by
    have h2 : |regionMean g 0 g.h 0 (g.w / 2) - regionMean g 0 g.h (g.w / 2) g.w| / 255 ≤ 1 := by
      rw [div_le_one (by norm_num : (0 : ℚ) < 255)]
      exact habs
    linarith
  have hsym2 : 1 -
      |regionMean g 0 g.h 0 (g.w / 2) - regionMean g 0 g.h (g.w / 2) g.w| / 255 ≤ 1 := by
    have h2 : 0 ≤ |regionMean g 0 g.h 0 (g.w / 2) - regionMean g 0 g.h (g.w / 2) g.w| / 255 :=
      div_nonneg (abs_nonneg _) (by norm_num)
    linarith
  simp only [FacialExpressionAnalyzer.analyze_expression_rule_based, Bool.and_self,
    if_true, hhs]
  refine ⟨⟨le_min (by norm_num) (by linarith), min_le_left _ _⟩,
    ⟨le_min (by norm_num) (by linarith), min_le_left _ _⟩,
    ⟨le_min (by norm_num) (by linarith), min_le_left _ _⟩,
    ⟨le_min (by norm_num) (by linarith), min_le_left _ _⟩, rfl⟩

/-- C10 witness: a concrete 2×2 face image with all pixels equal to 100, and
the `None` case. -/
theorem rule_based_bounds_witness :
    (0 ≤ (FacialExpressionAnalyzer.analyze_expression_rule_based true true
        (some ⟨2, 2, fun _ _ => 100⟩)).confidence ∧
      (FacialExpressionAnalyzer.analyze_expression_rule_based true true
        (some ⟨2, 2, fun _ _ => 100⟩)).confidence ≤ 7/10) ∧
    (0 ≤ (FacialExpressionAnalyzer.analyze_expression_rule_based true true
        (some ⟨2, 2, fun _ _ => 100⟩)).authenticity ∧
      (FacialExpressionAnalyzer.analyze_expression_rule_based true true
        (some ⟨2, 2, fun _ _ => 100⟩)).authenticity ≤ 75/100) ∧
    (0 ≤ (FacialExpressionAnalyzer.analyze_expression_rule_based true true
        (some ⟨2, 2, fun _ _ => 100⟩)).leadership ∧
      (FacialExpressionAnalyzer.analyze_expression_rule_based true true
        (some ⟨2, 2, fun _ _ => 100⟩)).leadership ≤ 65/100) ∧
    (0 ≤ (FacialExpressionAnalyzer.analyze_expression_rule_based true true
        (some ⟨2, 2, fun _ _ => 100⟩)).pressure_handling ∧
      (FacialExpressionAnalyzer.analyze_expression_rule_based true true
        (some ⟨2, 2, fun _ _ => 100⟩)).pressure_handling ≤ 7/10) ∧
    FacialExpressionAnalyzer.analyze_expression_rule_based true true none =
      ⟨1/2, 1/2, 1/2, 1/2⟩ :=
  rule_based_bounds ⟨2, 2, fun _ _ => 100⟩
    (fun _ _ _ _ => ⟨show (0 : ℚ) ≤ 100 by decide, show (100 : ℚ) ≤ 255 by decide⟩)

end HRVideo
